import Mathlib

/-!
Shallow embedding of `base16-universal-manager` (main.go): the path
resolver `getSavePath`, the renderer `Base16Render`, and the per-application
loop of `run`, together with theorems checking the specification's claims.

Filesystem and process effects are made explicit: a `World` records the
files (path ↦ contents), the set of existing directories, and the hook
commands that have been executed.  External collaborators (the network
fetch, the mustache engine, `user.Current()`, failure of `os.MkdirAll`
and of file writes, hook exit status) are supplied by a `RenderEnv` of
oracle functions, so every definition is executable on concrete inputs.

Errors follow Go's convention: a `String` message, `Option String` where
Go has a nil-able `error` return (`none` = nil), and `getSavePath` keeps
Go's two return values `(string, error)` as `String × Option String`.
-/

/-- Split a character list at every occurrence of `sep` (kernel-reducible
replacement for `String.splitOn`). -/
def splitChar (sep : Char) : List Char → List (List Char)
  | [] => [[]]
  | c :: rest =>
    let r := splitChar sep rest
    if c = sep then [] :: r
    else
      match r with
      | [] => [[c]]
      | h :: t => (c :: h) :: t

/-- Split a string at every `/` into its components. -/
def strSplitSlash (s : String) : List String :=
  (splitChar '/' s.data).map String.mk

/-- Join strings with `/` between them. -/
def intercalateSlash : List String → String
  | [] => ""
  | [s] => s
  | s :: rest => s ++ "/" ++ intercalateSlash rest

/-- First character of a string; models Go's `path[0]` (callers guard
against the empty string). -/
def strFront (s : String) : Char :=
  match s.data with
  | [] => default
  | c :: _ => c

/-- Models Go's `strings.HasPrefix`. -/
def strStartsWith (s pre : String) : Bool :=
  pre.data.isPrefixOf s.data

/-- Models Go's `strings.HasSuffix`. -/
def strEndsWith (s suf : String) : Bool :=
  suf.data.isSuffixOf s.data

/-- Models Go's `path[n:]` slicing (at rune granularity). -/
def strDrop (s : String) (n : Nat) : String :=
  String.mk (s.data.drop n)

/-- Semantic model of Go's `path/filepath.Clean` on Unix: collapse
repeated separators, drop `.` elements, resolve `..` against a preceding
element (or drop it at the root), return `.` for an empty result. -/
def filepathClean (p : String) : String :=
  let rooted := strStartsWith p "/"
  let comps := strSplitSlash p
  let out := comps.foldl (fun acc c =>
    if c = "" ∨ c = "." then acc
    else if c = ".." then
      match acc with
      | [] => if rooted then [] else [".."]
      | a :: rest => if a = ".." then c :: acc else rest
    else c :: acc) []
  let body := intercalateSlash out.reverse
  if rooted then "/" ++ body
  else if body = "" then "." else body

/-- Semantic model of Go's `filepath.Join` on two elements: empty
elements are dropped and the result is cleaned. -/
def filepathJoin (a b : String) : String :=
  if a = "" ∧ b = "" then ""
  else if a = "" then filepathClean b
  else filepathClean (a ++ "/" ++ b)

/-- The observable filesystem/process state: files by path, existing
directories, and the hook commands executed so far (in order). -/
structure World where
  files : List (String × String)
  dirs : List String
  hooks : List String
  deriving DecidableEq, Repr

/-- Association-list update used to model writing a file. -/
def setAssoc (m : List (String × String)) (k v : String) : List (String × String) :=
  match m with
  | [] => [(k, v)]
  | (k', v') :: rest => if k' = k then (k, v) :: rest else (k', v') :: setAssoc rest k v

/-- Association-list lookup with a default, modelling Go's map access
that yields the zero value for a missing key. -/
def lookupD {α : Type} (m : List (String × α)) (k : String) (d : α) : α :=
  match m with
  | [] => d
  | (k', v) :: rest => if k' = k then v else lookupD rest k d

/-- All non-empty prefixes of a path cut at separators; `os.MkdirAll`
creates each of them (the directory and its parents). -/
def pathPrefixes (p : String) : List String :=
  let comps := strSplitSlash p
  ((List.range comps.length).map
    (fun i => intercalateSlash (comps.take (i + 1)))).filter (· ≠ "")

/-- Oracles for the external collaborators of the core. -/
structure RenderEnv where
  /-- Result of `user.Current()`: the home directory, or a lookup error. -/
  userCurrent : Except String String
  /-- Whether `os.MkdirAll` fails on a given path (when the directory
  does not already exist). -/
  mkdirFails : String → Bool
  /-- Behaviour of `DownloadFileToString`: remote fetch of a URL. -/
  download : String → Except String String
  /-- Behaviour of `scheme.MustacheContext(extension)`: context construction. -/
  mustacheContext : String → String → Except String (List (String × String))
  /-- Behaviour of `mustache.Render`: the pure expansion engine. -/
  mustacheRender : String → List (String × String) → String
  /-- Whether writing a given file path fails. -/
  writeFails : String → Bool
  /-- Whether a given hook command exits non-zero / fails to spawn. -/
  hookFails : String → Bool

/-- Model of `os.MkdirAll(path, perm)`: succeeds at once when the
directory exists; otherwise may fail, and on success creates the
directory and all its parents. -/
def mkdirAll (env : RenderEnv) (w : World) (p : String) :
    Option String × World :=
  if p ∈ w.dirs then (none, w)
  else if env.mkdirFails p then (some ("mkdir " ++ p ++ ": failed"), w)
  else (none, { w with dirs := pathPrefixes p ++ w.dirs })

/-- The resolution case analysis of `getSavePath` (main.go lines
219–228), as the code writes it: Go tests `path[0] != '/'` for the
relative case. -/
def resolveBase (homeDir path : String) : String :=
  if path = "~" then homeDir
  else if strStartsWith path "~/" then filepathJoin homeDir (strDrop path 2)
  else if strFront path ≠ '/' then filepathJoin "." path
  else path

/-- The same case analysis written from the specification's words: the
exact string `~` is the home directory; a `~/` prefix joins the home
directory with the remainder; a spec not starting with `/` is resolved
relative to the current working directory; anything else is used
verbatim as an absolute path. -/
def specResolve (homeDir path : String) : String :=
  if path = "~" then homeDir
  else if strStartsWith path "~/" then filepathJoin homeDir (strDrop path 2)
  else if ¬ strStartsWith path "/" then filepathJoin "." path
  else path

/-- Translation of `getSavePath` (main.go lines 205–239).  Returns Go's
pair `(savePath, err)` together with the world, since `os.MkdirAll` is a
filesystem effect. -/
def getSavePath (env : RenderEnv) (w : World) (path defaultFilename : String) :
    (String × Option String) × World :=
  if path = "" then (("", none), w)
  else
    let homeRes : Except String String :=
      if strFront path = '~' then
        match env.userCurrent with
        | .error e => .error ("could not get user home directory: " ++ e)
        | .ok h => .ok h
      else .ok ""
    match homeRes with
    | .error e => (("", some e), w)
    | .ok homeDir =>
      let savePath := resolveBase homeDir path
      if strEndsWith path "/" then
        match mkdirAll env w savePath with
        | (some e, w') => (("", some ("could not create folder: " ++ e)), w')
        | (none, w') => ((filepathJoin savePath defaultFilename, none), w')
      else ((savePath, none), w)

/-- Per file-key data of a template (`v.Extension`). -/
structure Base16TemplateFile where
  Extension : String
  deriving DecidableEq, Repr

/-- Template identity, fetch root and file-key map.  Go iterates the
`Files` map in unspecified order; the embedding fixes one order as a list. -/
structure Base16Template where
  Name : String
  RawBaseURL : String
  Files : List (String × Base16TemplateFile)
  deriving DecidableEq, Repr

/-- Colorscheme identity; only the name matters to the renderer — the
color data is consumed by the `mustacheContext` oracle. -/
structure Base16Colorscheme where
  Name : String
  deriving DecidableEq, Repr

/-- Per-file target configuration (`appConfig.Files[k]`);
Go's zero value (all fields empty) is the `Inhabited` default. -/
structure SetterAppFile where
  Path : String
  Mode : String
  StartMarker : String
  EndMarker : String
  deriving DecidableEq, Repr

instance : Inhabited SetterAppFile := ⟨⟨"", "", "", ""⟩⟩

/-- Per-application configuration (`appConf.Applications[app]`). -/
structure SetterAppConfig where
  Enabled : Bool
  Template : String
  Hook : String
  Files : List (String × SetterAppFile)
  deriving DecidableEq, Repr

instance : Inhabited SetterAppConfig := ⟨⟨false, "", "", []⟩⟩

/-- The parts of `SetterConfig` the renderer reads (global dry-run flag
and the applications map). -/
structure SetterConfig where
  DryRun : Bool
  Applications : List (String × SetterAppConfig)
  deriving DecidableEq, Repr

/-- Modelled from the spec: `WriteFile` (not under src/) — "rewrite"
overwrites the destination fully with the rendered text, creating the
file if absent and truncating if present; a filesystem failure is an
error. -/
def WriteFile (env : RenderEnv) (w : World) (path content : String) :
    Option String × World :=
  if env.writeFails path then (some ("write " ++ path ++ ": failed"), w)
  else (none, { w with files := setAssoc w.files path content })

/-- Join lines with a newline between them. -/
def joinLines : List String → String
  | [] => ""
  | [s] => s
  | s :: rest => s ++ "\n" ++ joinLines rest

/-- Modelled from the spec: `ReplaceMultiline` (SectionReplacer, not
under src/) — reads the file (error if absent), finds the first line
equal to `startMarker` and, after it, the first line equal to
`endMarker` (error if either is missing), and replaces the region
strictly between them with `newContent`, writing the result back. -/
def ReplaceMultiline (env : RenderEnv) (w : World)
    (path newContent startMarker endMarker : String) : Option String × World :=
  match lookupD (w.files.map (fun kv => (kv.1, some kv.2))) path none with
  | none => (some ("open " ++ path ++ ": no such file"), w)
  | some content =>
    let lines := (splitChar '\n' content.data).map String.mk
    match lines.findIdx? (· = startMarker) with
    | none => (some "start marker not found", w)
    | some i =>
      match (lines.drop (i + 1)).findIdx? (· = endMarker) with
      | none => (some "end marker not found", w)
      | some j =>
        let out := lines.take (i + 1) ++ [newContent] ++ lines.drop (i + 1 + j)
        WriteFile env w path (joinLines out)

/-- Modelled from the spec: `exe_cmd` (HookRunner, not under src/) — an
empty command is a no-op; a non-empty command is executed as a shell
command, recording the invocation; a non-zero exit or spawn failure is
an error (which the caller in `Base16Render` discards). -/
def exe_cmd (env : RenderEnv) (w : World) (cmd : String) : Option String × World :=
  if cmd = "" then (none, w)
  else ((if env.hookFails cmd then some ("hook failed: " ++ cmd) else none),
        { w with hooks := w.hooks ++ [cmd] })

/-- Body of the `for k, v := range templ.Files` loop of `Base16Render`
(main.go lines 156–194) for one file-key. -/
def renderFileKey (env : RenderEnv) (conf : SetterConfig)
    (templ : Base16Template) (scheme : Base16Colorscheme) (app : String)
    (w : World) (k : String) (v : Base16TemplateFile) : Option String × World :=
  match env.download (templ.RawBaseURL ++ "templates/" ++ k ++ ".mustache") with
  | .error e => (some ("could not download template file: " ++ e), w)
  | .ok templFileData =>
  match env.mustacheContext scheme.Name v.Extension with
  | .error e => (some ("generating template context: " ++ e), w)
  | .ok templContext =>
  let renderedFile := env.mustacheRender templFileData templContext
  let tgt := lookupD (lookupD conf.Applications app default).Files k default
  match getSavePath env w tgt.Path (k ++ v.Extension) with
  | ((_, some e), w') => (some ("could not get location for save path: " ++ e), w')
  | ((savePath, none), w') =>
  if savePath = "" then (none, w')
  else if conf.DryRun then (none, w')
  else
    match tgt.Mode with
    | "rewrite" => WriteFile env w' savePath renderedFile
    | "replace" => ReplaceMultiline env w' savePath renderedFile tgt.StartMarker tgt.EndMarker
    | _ => (none, w')

/-- The file-key loop of `Base16Render`: processes the keys in order,
returning the first error (fail-fast within the application). -/
def renderFiles (env : RenderEnv) (conf : SetterConfig)
    (templ : Base16Template) (scheme : Base16Colorscheme) (app : String) :
    World → List (String × Base16TemplateFile) → Option String × World
  | w, [] => (none, w)
  | w, (k, v) :: rest =>
    match renderFileKey env conf templ scheme app w k v with
    | (some e, w') => (some e, w')
    | (none, w') => renderFiles env conf templ scheme app w' rest

/-- Translation of `Base16Render` (main.go lines 153–203): render every
file-key of the template, then — unless dry-run — execute the
application's hook, discarding its outcome, and return `nil`. -/
def Base16Render (env : RenderEnv) (conf : SetterConfig)
    (templ : Base16Template) (scheme : Base16Colorscheme) (app : String)
    (w : World) : Option String × World :=
  match renderFiles env conf templ scheme app w templ.Files with
  | (some e, w') => (some e, w')
  | (none, w') =>
    if conf.DryRun then (none, w')
    else
      let hookRes := exe_cmd env w' (lookupD conf.Applications app default).Hook
      (none, hookRes.2)

/-- Modelled from the spec: registry `find` (templates.go, not under
src/) — exact-match lookup by name among the loaded entries, failing
with "not found" for an absent name. -/
def registryFind (entries : List (String × Base16Template)) (name : String) :
    Except String Base16Template :=
  match entries.find? (fun kv => kv.1 = name) with
  | some kv => .ok kv.2
  | none => .error ("not found: " ++ name)

/-- The per-application loop of `run` (main.go lines 126–142): for each
enabled application, default its template name, look the template up and
render; any error is returned at once, ending the whole loop. -/
def renderApps (env : RenderEnv) (conf : SetterConfig)
    (templates : List (String × Base16Template)) (scheme : Base16Colorscheme) :
    World → List (String × SetterAppConfig) → Option String × World
  | w, [] => (none, w)
  | w, (app, appConfig) :: rest =>
    let tmplName := if appConfig.Template = "" then app else appConfig.Template
    if appConfig.Enabled then
      match registryFind templates tmplName with
      | .error e => (some ("finding template " ++ tmplName ++ ": " ++ e), w)
      | .ok tmpl =>
        match Base16Render env conf tmpl scheme app w with
        | (some e, w') => (some ("rendering file: " ++ e), w')
        | (none, w') => renderApps env conf templates scheme w' rest
    else renderApps env conf templates scheme w rest

/-- The home-directory value `getSavePath` works with: `user.Current()`
is consulted only when the path spec starts with `~`, otherwise the Go
zero value `""` is used; `none` marks a failing lookup. -/
def homeFor (env : RenderEnv) (p : String) : Option String :=
  if strFront p = '~' then
    match env.userCurrent with
    | .ok h => some h
    | .error _ => none
  else some ""

theorem strStartsWith_single_iff (p : String) (c : Char) (hp : p ≠ "") :
    strStartsWith p ⟨[c]⟩ = true ↔ strFront p = c := by
  obtain ⟨data⟩ := p
  cases data with
  | nil => exact absurd rfl hp
  | cons a as =>
    have h1 : strStartsWith ⟨a :: as⟩ ⟨[c]⟩ =
        (c == a && List.isPrefixOf ([] : List Char) as) := rfl
    have h2 : List.isPrefixOf ([] : List Char) as = true := by cases as <;> rfl
    rw [h1, h2, Bool.and_true]
    constructor
    · intro h; exact (eq_of_beq h).symm
    · intro h
      have : a = c := h
      simp [this]

theorem strStartsWith_tilde_slash_front (p : String)
    (h : strStartsWith p "~/" = true) : strFront p = '~' := by
  obtain ⟨data⟩ := p
  cases data with
  | nil => exact absurd h (by decide)
  | cons a as =>
    have h' : ('~' == a && List.isPrefixOf ['/'] as) = true := h
    exact (eq_of_beq (Bool.and_eq_true _ _ |>.mp h').1).symm

theorem getSavePath_nilPath (env : RenderEnv) (w : World) (d : String) :
    getSavePath env w "" d = (("", none), w) := rfl

/-- C8: for every default filename argument, `getSavePath` on the empty
path spec returns the empty path and no error (and leaves the world
untouched). -/
theorem getSavePath_empty (env : RenderEnv) (w : World) (d : String) :
    getSavePath env w "" d = (("", none), w) := rfl

/-- C10: whenever `getSavePath` returns a non-nil error it returns the
empty string as the path; it never returns a non-empty path together
with an error. -/
theorem getSavePath_error_empty (env : RenderEnv) (w : World) (p d : String)
    (h : (getSavePath env w p d).1.2 ≠ none) :
    (getSavePath env w p d).1.1 = "" := by
  revert h
  unfold getSavePath
  split
  · intro _; rfl
  · dsimp only
    split
    · intro _; rfl
    · split
      · split
        · intro _; rfl
        · intro h; exact absurd rfl h
      · intro h; exact absurd rfl h

/-- Environment with every collaborator succeeding, for concrete runs. -/
def demoEnv : RenderEnv :=
  ⟨.ok "/home/u", fun _ => false, fun _ => .ok "body", fun _ _ => .ok [],
   fun t _ => t, fun _ => false, fun _ => false⟩

/-- Environment whose home-directory lookup fails. -/
def failHomeEnv : RenderEnv :=
  ⟨.error "no user", fun _ => false, fun _ => .ok "body", fun _ _ => .ok [],
   fun t _ => t, fun _ => false, fun _ => false⟩

/-- The empty world: no files, no directories, no hooks run. -/
def w0 : World := ⟨[], [], []⟩

theorem getSavePath_error_empty_witness :
    (getSavePath failHomeEnv w0 "~" "f").1.2 ≠ none ∧
    (getSavePath failHomeEnv w0 "~" "f").1.1 = "" :=
  ⟨by decide, getSavePath_error_empty failHomeEnv w0 "~" "f" (by decide)⟩

theorem resolveBase_eq_specResolve (home p : String) (hp : p ≠ "") :
    resolveBase home p = specResolve home p := by
  unfold resolveBase specResolve
  by_cases h1 : p = "~"
  · simp [h1]
  · rw [if_neg h1, if_neg h1]
    by_cases h2 : strStartsWith p "~/" = true
    · rw [if_pos h2, if_pos h2]
    · rw [if_neg h2, if_neg h2]
      by_cases h3 : strFront p = '/'
      · have h4 : strStartsWith p "/" = true :=
          (strStartsWith_single_iff p '/' hp).mpr h3
        rw [if_neg (not_not_intro h3), if_neg (not_not_intro h4)]
      · have h4 : ¬ strStartsWith p "/" = true :=
          fun hh => h3 ((strStartsWith_single_iff p '/' hp).mp hh)
        rw [if_pos h3, if_pos h4]

theorem resolveBase_home_irrel (h1 h2 p : String) (hne : p ≠ "~")
    (hns : strStartsWith p "~/" ≠ true) :
    resolveBase h1 p = resolveBase h2 p := by
  unfold resolveBase
  rw [if_neg hne, if_neg hns, if_neg hne, if_neg hns]

/-- C5: for every non-empty path spec, `getSavePath` resolves it exactly
as the specification's four cases state: `~` to the home directory, a
`~/` prefix to the home directory joined with the remainder, a spec not
starting with `/` relative to the current directory, and anything else
verbatim (shown both for the resolution step `resolveBase` and for the
full `getSavePath` on specs without a trailing separator). -/
theorem getSavePath_resolution (home p : String) (hp : p ≠ "") :
    resolveBase home p = specResolve home p ∧
    ∀ (env : RenderEnv) (w : World) (d : String),
      env.userCurrent = .ok home → strEndsWith p "/" = false →
      getSavePath env w p d = ((specResolve home p, none), w) := by
  refine ⟨resolveBase_eq_specResolve home p hp, ?_⟩
  intro env w d hc he
  unfold getSavePath
  rw [if_neg hp]
  by_cases ht : strFront p = '~'
  · rw [if_pos ht, hc]
    dsimp only
    rw [if_neg (by simp [he]), resolveBase_eq_specResolve home p hp]
  · have hne : p ≠ "~" := fun hh => ht (by rw [hh]; decide)
    have hns : strStartsWith p "~/" ≠ true :=
      fun hh => ht (strStartsWith_tilde_slash_front p hh)
    rw [if_neg ht]
    dsimp only
    rw [if_neg (by simp [he]), resolveBase_home_irrel "" home p hne hns,
      resolveBase_eq_specResolve home p hp]

theorem getSavePath_resolution_witness :
    resolveBase "/home/u" "~/cfg" = specResolve "/home/u" "~/cfg" ∧
    getSavePath demoEnv w0 "~/cfg" "f" = ((specResolve "/home/u" "~/cfg", none), w0) := by
  have h := getSavePath_resolution "/home/u" "~/cfg" (by decide)
  exact ⟨h.1, h.2 demoEnv w0 "f" rfl (by decide)⟩

/-- C9: for every path spec starting with `~` that is neither exactly
`~` nor prefixed by `~/` (e.g. `~user/x`), `getSavePath` still performs
the home-directory lookup — a lookup failure fails the call — yet on
success the spec is resolved relative to the current working directory,
not to any home directory. -/
theorem getSavePath_tilde_other (p : String)
    (h1 : strFront p = '~') (h2 : p ≠ "~") (h3 : strStartsWith p "~/" ≠ true) :
    (∀ (env : RenderEnv) (w : World) (d e : String),
       env.userCurrent = .error e →
       getSavePath env w p d =
         (("", some ("could not get user home directory: " ++ e)), w)) ∧
    (∀ home, resolveBase home p = filepathJoin "." p) ∧
    (∀ (env : RenderEnv) (w : World) (d home : String),
       env.userCurrent = .ok home → strEndsWith p "/" = false →
       getSavePath env w p d = ((filepathJoin "." p, none), w)) := by
  have hp : p ≠ "" := by
    intro hh; rw [hh] at h1; exact absurd h1 (by decide)
  have hbase : ∀ home, resolveBase home p = filepathJoin "." p := by
    intro home
    unfold resolveBase
    rw [if_neg h2, if_neg h3, if_pos (by rw [h1]; decide)]
  refine ⟨?_, hbase, ?_⟩
  · intro env w d e hc
    unfold getSavePath
    rw [if_neg hp, if_pos h1, hc]
  · intro env w d home hc he
    unfold getSavePath
    rw [if_neg hp, if_pos h1, hc]
    dsimp only
    rw [if_neg (by simp [he]), hbase home]

theorem getSavePath_tilde_other_witness :
    getSavePath failHomeEnv w0 "~user/x" "f" =
      (("", some "could not get user home directory: no user"), w0) ∧
    getSavePath demoEnv w0 "~user/x" "f" = (("~user/x", none), w0) := by
  have h := getSavePath_tilde_other "~user/x" (by decide) (by decide) (by decide)
  exact ⟨h.1 failHomeEnv w0 "f" "no user" rfl,
    (h.2.2 demoEnv w0 "f" "/home/u" rfl (by decide)).trans (by decide)⟩

/-- C6: a path spec ending in a separator denotes a directory — the
resolved directory is created (with its parents; no error when it
already exists) and the result is that directory joined with the
default filename; a spec not ending in a separator and not starting
with `~` or `/` resolves to the current-directory-relative join of the
spec, independent of the default filename. -/
theorem getSavePath_dir (p d home : String) :
    (strEndsWith p "/" = true → p ≠ "" →
      ∀ (env : RenderEnv) (w : World), homeFor env p = some home →
        (resolveBase home p ∈ w.dirs →
          getSavePath env w p d = ((filepathJoin (resolveBase home p) d, none), w)) ∧
        (env.mkdirFails (resolveBase home p) = false →
          (getSavePath env w p d).1 = (filepathJoin (resolveBase home p) d, none) ∧
          (resolveBase home p ∉ w.dirs →
            ∀ q ∈ pathPrefixes (resolveBase home p),
              q ∈ (getSavePath env w p d).2.dirs))) ∧
    (strEndsWith p "/" = false → strStartsWith p "~" ≠ true →
      strStartsWith p "/" ≠ true → p ≠ "" →
      ∀ (env : RenderEnv) (w : World),
        getSavePath env w p d = ((filepathJoin "." p, none), w)) := by
  constructor
  · intro he hp env w hh
    have hres : getSavePath env w p d =
        (match mkdirAll env w (resolveBase home p) with
         | (some e, w') => (("", some ("could not create folder: " ++ e)), w')
         | (none, w') => ((filepathJoin (resolveBase home p) d, none), w')) := by
      unfold getSavePath
      rw [if_neg hp]
      unfold homeFor at hh
      by_cases ht : strFront p = '~'
      · rw [if_pos ht] at hh ⊢
        cases hc : env.userCurrent with
        | ok hO =>
          rw [hc] at hh
          have hOh : hO = home := by simpa using hh
          rw [hOh]
          dsimp only
          rw [if_pos he]
        | error e => rw [hc] at hh; exact absurd hh (by simp)
      · rw [if_neg ht] at hh ⊢
        have : home = "" := by
          have := hh
          simpa using this.symm
        dsimp only
        rw [if_pos he, this]
    constructor
    · intro hmem
      rw [hres]
      unfold mkdirAll
      rw [if_pos hmem]
    · intro hmf
      by_cases hmem : resolveBase home p ∈ w.dirs
      · refine ⟨by rw [hres]; unfold mkdirAll; rw [if_pos hmem], ?_⟩
        intro hcon; exact absurd hmem hcon
      · have hstep : mkdirAll env w (resolveBase home p) =
            (none, { w with dirs := pathPrefixes (resolveBase home p) ++ w.dirs }) := by
          unfold mkdirAll
          rw [if_neg hmem, if_neg (by simp [hmf])]
        refine ⟨by rw [hres, hstep], ?_⟩
        intro _ q hq
        rw [hres, hstep]
        exact List.mem_append_left _ hq
  · intro he hnt hns hp env w
    have ht : strFront p ≠ '~' := fun hh => hnt ((strStartsWith_single_iff p '~' hp).mpr hh)
    have hsf : strFront p ≠ '/' := fun hh => hns ((strStartsWith_single_iff p '/' hp).mpr hh)
    unfold getSavePath
    rw [if_neg hp, if_neg ht]
    dsimp only
    rw [if_neg (by simp [he])]
    have : resolveBase "" p = filepathJoin "." p := by
      unfold resolveBase
      rw [if_neg (fun hh => ht (by rw [hh]; decide)),
        if_neg (fun hh => ht (strStartsWith_tilde_slash_front p hh)), if_pos hsf]
    rw [this]

theorem getSavePath_dir_witness :
    ((getSavePath demoEnv w0 "out/" "f.x").1 = ("out/f.x", none) ∧
      "out" ∈ (getSavePath demoEnv w0 "out/" "f.x").2.dirs) ∧
    getSavePath demoEnv w0 "rel.cfg" "f.x" = (("rel.cfg", none), w0) := by
  have h := getSavePath_dir "out/" "f.x" ""
  have h2 := getSavePath_dir "rel.cfg" "f.x" ""
  have ha := (h.1 (by decide) (by decide) demoEnv w0 (by decide)).2 (by decide)
  refine ⟨⟨by rw [ha.1]; decide, ?_⟩, ?_⟩
  · exact ha.2 (by decide) "out" (by decide)
  · exact (h2.2 (by decide) (by decide) (by decide) (by decide) demoEnv w0).trans (by decide)


theorem getSavePath_world (env : RenderEnv) (w : World) (p d : String) :
    (getSavePath env w p d).2.files = w.files ∧
    (getSavePath env w p d).2.hooks = w.hooks := by
  unfold getSavePath mkdirAll
  repeat' first
    | exact ⟨rfl, rfl⟩
    | split
    | dsimp only
  all_goals rename_i heq
  all_goals repeat' split at heq
  all_goals injection heq with h1 h2
  all_goals first
    | exact (Option.noConfusion h1)
    | (subst h2; exact ⟨rfl, rfl⟩)

theorem WriteFile_world (env : RenderEnv) (w : World) (p c : String) :
    (WriteFile env w p c).2.hooks = w.hooks ∧
    (WriteFile env w p c).2.dirs = w.dirs := by
  unfold WriteFile
  split <;> exact ⟨rfl, rfl⟩

theorem ReplaceMultiline_world (env : RenderEnv) (w : World) (p n s e : String) :
    (ReplaceMultiline env w p n s e).2.hooks = w.hooks ∧
    (ReplaceMultiline env w p n s e).2.dirs = w.dirs := by
  unfold ReplaceMultiline
  repeat' first
    | exact ⟨rfl, rfl⟩
    | exact WriteFile_world env w _ _
    | split
    | dsimp only

theorem renderFileKey_hooks (env : RenderEnv) (conf : SetterConfig)
    (templ : Base16Template) (scheme : Base16Colorscheme) (app : String)
    (w : World) (k : String) (v : Base16TemplateFile) :
    (renderFileKey env conf templ scheme app w k v).2.hooks = w.hooks := by
  unfold renderFileKey
  cases env.download (templ.RawBaseURL ++ "templates/" ++ k ++ ".mustache") with
  | error e => rfl
  | ok td =>
    cases env.mustacheContext scheme.Name v.Extension with
    | error e => rfl
    | ok ctx =>
      dsimp only
      rcases hE : getSavePath env w
          (lookupD (lookupD conf.Applications app default).Files k default).Path
          (k ++ v.Extension) with ⟨⟨sp, err⟩, w'⟩
      have hw : w'.hooks = w.hooks := by
        have h := (getSavePath_world env w
          (lookupD (lookupD conf.Applications app default).Files k default).Path
          (k ++ v.Extension)).2
        rw [hE] at h
        exact h
      cases err with
      | some e => exact hw
      | none =>
        dsimp only
        by_cases hsp : sp = ""
        · rw [if_pos hsp]; exact hw
        · rw [if_neg hsp]
          by_cases hdry : conf.DryRun = true
          · rw [if_pos hdry]; exact hw
          · rw [if_neg hdry]
            split
            · exact ((WriteFile_world env w' _ _).1).trans hw
            · exact ((ReplaceMultiline_world env w' _ _ _ _).1).trans hw
            · exact hw

theorem renderFileKey_dry_files (env : RenderEnv) (conf : SetterConfig)
    (templ : Base16Template) (scheme : Base16Colorscheme) (app : String)
    (w : World) (k : String) (v : Base16TemplateFile)
    (hd : conf.DryRun = true) :
    (renderFileKey env conf templ scheme app w k v).2.files = w.files := by
  unfold renderFileKey
  cases env.download (templ.RawBaseURL ++ "templates/" ++ k ++ ".mustache") with
  | error e => rfl
  | ok td =>
    cases env.mustacheContext scheme.Name v.Extension with
    | error e => rfl
    | ok ctx =>
      dsimp only
      rcases hE : getSavePath env w
          (lookupD (lookupD conf.Applications app default).Files k default).Path
          (k ++ v.Extension) with ⟨⟨sp, err⟩, w'⟩
      have hw : w'.files = w.files := by
        have h := (getSavePath_world env w
          (lookupD (lookupD conf.Applications app default).Files k default).Path
          (k ++ v.Extension)).1
        rw [hE] at h
        exact h
      cases err with
      | some e => exact hw
      | none =>
        dsimp only
        by_cases hsp : sp = ""
        · rw [if_pos hsp]; exact hw
        · rw [if_neg hsp, if_pos hd]
          exact hw

theorem renderFiles_hooks (env : RenderEnv) (conf : SetterConfig)
    (templ : Base16Template) (scheme : Base16Colorscheme) (app : String) :
    ∀ (fs : List (String × Base16TemplateFile)) (w : World),
      (renderFiles env conf templ scheme app w fs).2.hooks = w.hooks := by
  intro fs
  induction fs with
  | nil => intro w; rfl
  | cons kv rest ih =>
    intro w
    show (match renderFileKey env conf templ scheme app w kv.1 kv.2 with
      | (some e, w') => (some e, w')
      | (none, w') => renderFiles env conf templ scheme app w' rest).2.hooks = w.hooks
    have h := renderFileKey_hooks env conf templ scheme app w kv.1 kv.2
    rcases hE : renderFileKey env conf templ scheme app w kv.1 kv.2 with ⟨err, w'⟩
    rw [hE] at h
    cases err with
    | some e => exact h
    | none => exact (ih w').trans h

theorem renderFiles_dry_files (env : RenderEnv) (conf : SetterConfig)
    (templ : Base16Template) (scheme : Base16Colorscheme) (app : String)
    (hd : conf.DryRun = true) :
    ∀ (fs : List (String × Base16TemplateFile)) (w : World),
      (renderFiles env conf templ scheme app w fs).2.files = w.files := by
  intro fs
  induction fs with
  | nil => intro w; rfl
  | cons kv rest ih =>
    intro w
    show (match renderFileKey env conf templ scheme app w kv.1 kv.2 with
      | (some e, w') => (some e, w')
      | (none, w') => renderFiles env conf templ scheme app w' rest).2.files = w.files
    have h := renderFileKey_dry_files env conf templ scheme app w kv.1 kv.2 hd
    rcases hE : renderFileKey env conf templ scheme app w kv.1 kv.2 with ⟨err, w'⟩
    rw [hE] at h
    cases err with
    | some e => exact h
    | none => exact (ih w').trans h

/-- C1 (amended): in dry-run mode, `Base16Render` writes or modifies no
file and executes no hook — but destination resolution can still create
directories, so the world's directory set is not in general preserved. -/
theorem base16Render_dryrun (env : RenderEnv) (conf : SetterConfig)
    (templ : Base16Template) (scheme : Base16Colorscheme) (app : String)
    (w : World) (hd : conf.DryRun = true) :
    (Base16Render env conf templ scheme app w).2.files = w.files ∧
    (Base16Render env conf templ scheme app w).2.hooks = w.hooks := by
  unfold Base16Render
  have hf := renderFiles_dry_files env conf templ scheme app hd templ.Files w
  have hh := renderFiles_hooks env conf templ scheme app templ.Files w
  rcases hE : renderFiles env conf templ scheme app w templ.Files with ⟨err, w'⟩
  rw [hE] at hf hh
  cases err with
  | some e => exact ⟨hf, hh⟩
  | none =>
    dsimp only
    rw [if_pos hd]
    exact ⟨hf, hh⟩

/-- A colorscheme and template for concrete runs. -/
def demoScheme : Base16Colorscheme := ⟨"s"⟩

def demoTempl : Base16Template := ⟨"t", "R/", [("f", ⟨".cfg"⟩)]⟩

/-- Dry-run configuration whose only file-key points at a directory. -/
def dryConf : SetterConfig :=
  ⟨true, [("app", ⟨true, "", "hookcmd", [("f", ⟨"outdir/", "rewrite", "", ""⟩)]⟩)]⟩

theorem base16Render_dryrun_witness :
    dryConf.DryRun = true ∧
    (Base16Render demoEnv dryConf demoTempl demoScheme "app" w0).2.files = w0.files ∧
    (Base16Render demoEnv dryConf demoTempl demoScheme "app" w0).2.hooks = w0.hooks :=
  ⟨rfl, base16Render_dryrun demoEnv dryConf demoTempl demoScheme "app" w0 rfl⟩

theorem base16Render_dryrun_mkdir_counterexample :
    dryConf.DryRun = true ∧ w0.dirs = [] ∧
    (Base16Render demoEnv dryConf demoTempl demoScheme "app" w0).2.dirs = ["outdir"] := by
  decide

/-- C3 (amended): a hook failure is an error at the hook-runner level,
but `Base16Render` discards that outcome and returns `nil` regardless;
an empty hook command leaves the executed-hook record untouched. -/
theorem base16Render_hook_amended (env : RenderEnv) (conf : SetterConfig)
    (templ : Base16Template) (scheme : Base16Colorscheme) (app : String)
    (w : World) (hd : conf.DryRun = false) :
    (∀ w', renderFiles env conf templ scheme app w templ.Files = (none, w') →
       Base16Render env conf templ scheme app w =
         (none, (exe_cmd env w' (lookupD conf.Applications app default).Hook).2)) ∧
    ((lookupD conf.Applications app default).Hook = "" →
       (Base16Render env conf templ scheme app w).2.hooks = w.hooks) ∧
    (∀ (w'' : World) (cmd : String), cmd ≠ "" → env.hookFails cmd = true →
       (exe_cmd env w'' cmd).1 = some ("hook failed: " ++ cmd)) := by
  refine ⟨?_, ?_, ?_⟩
  · intro w' hE
    unfold Base16Render
    rw [hE]
    dsimp only
    rw [if_neg (by simp [hd])]
  · intro hhk
    unfold Base16Render
    have hh := renderFiles_hooks env conf templ scheme app templ.Files w
    rcases hE : renderFiles env conf templ scheme app w templ.Files with ⟨err, w'⟩
    rw [hE] at hh
    cases err with
    | some e => exact hh
    | none =>
      dsimp only
      rw [if_neg (by simp [hd]), hhk]
      show w'.hooks = w.hooks
      exact hh
  · intro w'' cmd hc hf
    simp [exe_cmd, hc, hf]

/-- Environment in which every hook command fails. -/
def hookFailEnv : RenderEnv :=
  ⟨.ok "/home/u", fun _ => false, fun _ => .ok "body", fun _ _ => .ok [],
   fun t _ => t, fun _ => false, fun _ => true⟩

/-- Configuration with a non-empty hook and no file-keys configured. -/
def hookConf : SetterConfig := ⟨false, [("app", ⟨true, "", "failhook", []⟩)]⟩

/-- A template with no file-keys, isolating the hook step. -/
def emptyTempl : Base16Template := ⟨"t", "R/", []⟩

theorem base16Render_hook_counterexample :
    hookFailEnv.hookFails "failhook" = true ∧
    (exe_cmd hookFailEnv w0 "failhook").1 = some "hook failed: failhook" ∧
    Base16Render hookFailEnv hookConf emptyTempl demoScheme "app" w0 =
      (none, ⟨[], [], ["failhook"]⟩) := by
  decide

theorem base16Render_hook_amended_witness :
    Base16Render hookFailEnv hookConf emptyTempl demoScheme "app" w0 =
      (none, (exe_cmd hookFailEnv w0
        (lookupD hookConf.Applications "app" default).Hook).2) ∧
    (exe_cmd hookFailEnv w0 "failhook").1 = some ("hook failed: " ++ "failhook") := by
  have h := base16Render_hook_amended hookFailEnv hookConf emptyTempl demoScheme "app" w0 rfl
  exact ⟨h.1 w0 rfl, h.2.2 w0 "failhook" (by decide) rfl⟩

/-- C4: a file-key whose configured mode is neither `rewrite` nor
`replace` (including the unset mode) gets no write — the files on disk
are unchanged by that file-key — and no error is raised for the
unrecognized mode (given that the fetch, context and path-resolution
steps of that file-key succeed). -/
theorem renderFileKey_other_mode (env : RenderEnv) (conf : SetterConfig)
    (templ : Base16Template) (scheme : Base16Colorscheme) (app : String)
    (w w' : World) (k sp td : String) (v : Base16TemplateFile)
    (ctx : List (String × String))
    (h1 : env.download (templ.RawBaseURL ++ "templates/" ++ k ++ ".mustache") = .ok td)
    (h2 : env.mustacheContext scheme.Name v.Extension = .ok ctx)
    (h3 : getSavePath env w
        (lookupD (lookupD conf.Applications app default).Files k default).Path
        (k ++ v.Extension) = ((sp, none), w'))
    (h4 : (lookupD (lookupD conf.Applications app default).Files k default).Mode ≠ "rewrite")
    (h5 : (lookupD (lookupD conf.Applications app default).Files k default).Mode ≠ "replace") :
    renderFileKey env conf templ scheme app w k v = (none, w') ∧
    w'.files = w.files := by
  have hw : w'.files = w.files := by
    have h := (getSavePath_world env w
      (lookupD (lookupD conf.Applications app default).Files k default).Path
      (k ++ v.Extension)).1
    rw [h3] at h
    exact h
  refine ⟨?_, hw⟩
  unfold renderFileKey
  rw [h1]
  dsimp only
  rw [h2]
  dsimp only
  rw [h3]
  dsimp only
  by_cases hsp : sp = ""
  · rw [if_pos hsp]
  · rw [if_neg hsp]
    by_cases hdry : conf.DryRun = true
    · rw [if_pos hdry]
    · rw [if_neg hdry]
      split
      · rename_i hmode; exact absurd hmode h4
      · rename_i hmode; exact absurd hmode h5
      · rfl

/-- Configuration whose file-key carries an unrecognized write mode. -/
def otherModeConf : SetterConfig :=
  ⟨false, [("app", ⟨true, "", "", [("f", ⟨"out_f", "weird", "", ""⟩)]⟩)]⟩

theorem renderFileKey_other_mode_witness :
    renderFileKey demoEnv otherModeConf demoTempl demoScheme "app" w0 "f" ⟨".cfg"⟩ =
      (none, w0) ∧
    World.files w0 = World.files w0 :=
  renderFileKey_other_mode demoEnv otherModeConf demoTempl demoScheme "app"
    w0 w0 "f" "out_f" "body" ⟨".cfg"⟩ [] rfl rfl (by decide) (by decide) (by decide)

/-- C7: a file-key whose destination resolution yields the empty path
(no destination configured) is skipped without error — the world is
untouched — and processing continues with the remaining file-keys; the
resolution is invoked with default filename `k ++ v.Extension`. -/
theorem renderFileKey_empty_path (env : RenderEnv) (conf : SetterConfig)
    (templ : Base16Template) (scheme : Base16Colorscheme) (app : String)
    (w : World) (k td : String) (v : Base16TemplateFile)
    (ctx : List (String × String))
    (rest : List (String × Base16TemplateFile))
    (h1 : env.download (templ.RawBaseURL ++ "templates/" ++ k ++ ".mustache") = .ok td)
    (h2 : env.mustacheContext scheme.Name v.Extension = .ok ctx)
    (h3 : (lookupD (lookupD conf.Applications app default).Files k default).Path = "") :
    getSavePath env w
      (lookupD (lookupD conf.Applications app default).Files k default).Path
      (k ++ v.Extension) = (("", none), w) ∧
    renderFileKey env conf templ scheme app w k v = (none, w) ∧
    renderFiles env conf templ scheme app w ((k, v) :: rest) =
      renderFiles env conf templ scheme app w rest := by
  have hstep : renderFileKey env conf templ scheme app w k v = (none, w) := by
    unfold renderFileKey
    rw [h1]
    dsimp only
    rw [h2]
    dsimp only
    rw [h3, getSavePath_nilPath env w (k ++ v.Extension)]
    dsimp only
    rw [if_pos rfl]
  refine ⟨by rw [h3]; exact getSavePath_nilPath env w (k ++ v.Extension), hstep, ?_⟩
  show (match renderFileKey env conf templ scheme app w k v with
    | (some e, w') => (some e, w')
    | (none, w') => renderFiles env conf templ scheme app w' rest) =
    renderFiles env conf templ scheme app w rest
  rw [hstep]

/-- Configuration in which no file-key has a destination configured. -/
def emptyPathConf : SetterConfig := ⟨false, [("app", ⟨true, "", "", []⟩)]⟩

theorem renderFileKey_empty_path_witness :
    renderFileKey demoEnv emptyPathConf demoTempl demoScheme "app" w0 "f" ⟨".cfg"⟩ =
      (none, w0) ∧
    renderFiles demoEnv emptyPathConf demoTempl demoScheme "app" w0
        [("f", ⟨".cfg"⟩), ("g", ⟨".x"⟩)] =
      renderFiles demoEnv emptyPathConf demoTempl demoScheme "app" w0 [("g", ⟨".x"⟩)] :=
  have h := renderFileKey_empty_path demoEnv emptyPathConf demoTempl demoScheme "app"
    w0 "f" "body" ⟨".cfg"⟩ [] [("g", ⟨".x"⟩)] rfl rfl rfl
  ⟨h.2.1, h.2.2⟩

/-- C2 (amended): an error while rendering one enabled application's
file-keys aborts that application's remaining file-keys and ends the
whole per-application loop — the applications after it are not rendered
(the result does not depend on the remainder of the list). -/
theorem renderApps_abort (env : RenderEnv) (conf : SetterConfig)
    (templates : List (String × Base16Template)) (scheme : Base16Colorscheme)
    (w w' : World) (app : String) (appConfig : SetterAppConfig)
    (rest : List (String × SetterAppConfig)) (tmpl : Base16Template) (e : String)
    (h1 : appConfig.Enabled = true)
    (h2 : registryFind templates
      (if appConfig.Template = "" then app else appConfig.Template) = .ok tmpl)
    (h3 : Base16Render env conf tmpl scheme app w = (some e, w')) :
    renderApps env conf templates scheme w ((app, appConfig) :: rest) =
      (some ("rendering file: " ++ e), w') := by
  unfold renderApps
  dsimp only
  rw [if_pos h1, h2]
  dsimp only
  rw [h3]

/-- The two templates of the two-application scenario. -/
def templA : Base16Template := ⟨"a", "A/", [("f", ⟨".x"⟩)]⟩

def templB : Base16Template := ⟨"b", "B/", [("g", ⟨".y"⟩)]⟩

def twoTemplates : List (String × Base16Template) := [("a", templA), ("b", templB)]

/-- Applications `a` and `b`, both enabled; `b` also has a hook. -/
def appA : SetterAppConfig := ⟨true, "", "", [("f", ⟨"out_a", "rewrite", "", ""⟩)]⟩

def appB : SetterAppConfig := ⟨true, "", "hb", [("g", ⟨"out_b", "rewrite", "", ""⟩)]⟩

def twoAppConf : SetterConfig := ⟨false, [("a", appA), ("b", appB)]⟩

/-- Environment where only application `a`'s template fetch fails. -/
def failAEnv : RenderEnv :=
  ⟨.ok "/home/u", fun _ => false,
   fun u => if u = "A/templates/f.mustache" then .error "boom" else .ok "body",
   fun _ _ => .ok [], fun t _ => t, fun _ => false, fun _ => false⟩

theorem renderApps_abort_counterexample :
    renderApps failAEnv twoAppConf twoTemplates demoScheme w0 twoAppConf.Applications =
      (some "rendering file: could not download template file: boom", w0) ∧
    Base16Render failAEnv twoAppConf templB demoScheme "b" w0 =
      (none, ⟨[("out_b", "body")], [], ["hb"]⟩) := by
  decide

theorem renderApps_abort_witness :
    renderApps failAEnv twoAppConf twoTemplates demoScheme w0 [("a", appA), ("b", appB)] =
      (some ("rendering file: " ++ "could not download template file: boom"), w0) :=
  renderApps_abort failAEnv twoAppConf twoTemplates demoScheme w0 w0 "a" appA
    [("b", appB)] templA "could not download template file: boom"
    rfl rfl (by decide)
